import Mathlib

/-!
Verification of the PyCFramework testing harness (Solutions/dev/test.py).

The development shallowly embeds the configuration-driven execution and
comparison engine of test.py: Python strings become Lean Strings, the
filesystem and subprocess boundary become explicit oracle functions
(String to Option String for reads, String to Except Unit String for
spawned runs), and each Python function is translated into a Lean
definition that mirrors its control flow.  Theorems about these
definitions settle the claims of the specification.
-/

namespace PyCF

/-! ## Python string primitives

Models of the Python string/path operations used by test.py:
str.replace, str.lower, os.path.join, os.path.basename,
os.path.splitext. -/

/-- Model of Python str.replace with an empty pattern: the replacement is
inserted before every character and once at the end
("ab".replace("", "X") = "XaXbX"). -/
def pyReplaceEmpty (r : List Char) : List Char → List Char
  | [] => r
  | c :: cs => r ++ c :: pyReplaceEmpty r cs

/-- Worker for Python str.replace with nonempty pattern c0 :: p: scan
left to right, replacing non-overlapping occurrences of the pattern
by r.  The Nat argument is structural fuel, always called with at
least the length of the scanned list, so the fuel-exhausted branch is
never reached. -/
def pyReplaceGo (c0 : Char) (p r : List Char) : Nat → List Char → List Char
  | _, [] => []
  | 0, s => s
  | fuel + 1, c :: cs =>
    if c = c0 ∧ p = cs.take p.length then
      r ++ pyReplaceGo c0 p r fuel (cs.drop p.length)
    else
      c :: pyReplaceGo c0 p r fuel cs

/-- Model of Python s.replace(old, new): replace every non-overlapping
occurrence of old in s by new, scanning left to right. -/
def pyReplace (s old new : String) : String :=
  match old.data with
  | [] => ⟨pyReplaceEmpty new.data s.data⟩
  | c0 :: p => ⟨pyReplaceGo c0 p new.data s.data.length s.data⟩

/-- Model of Python str.lower for the ASCII strings the harness handles. -/
def pyLower (s : String) : String := ⟨s.data.map Char.toLower⟩

/-- Model of os.path.join(a, b) for one pair of POSIX path components:
an absolute b wins; otherwise b is appended to a, inserting a slash
unless a is empty or already ends with one. -/
def pyJoin (a b : String) : String :=
  if b.data.head? = some '/' then b
  else if a.data = [] ∨ a.data.getLast? = some '/' then a ++ b
  else a ++ "/" ++ b

/-- Model of os.path.basename: everything after the last slash. -/
def pyBasename (p : String) : String :=
  ⟨(p.data.reverse.takeWhile (fun c => ¬ c = '/')).reverse⟩

/-- Root component of os.path.splitext(p): p cut at its last dot, unless
that dot lies in a run of leading dots of the basename (so that
splitext of ".bashrc" keeps the whole name), or there is no dot after
the last slash. -/
def splitextRoot (p : String) : String :=
  let cs := p.data
  let base := (cs.reverse.takeWhile (fun c => ¬ c = '/')).reverse
  let ext := base.reverse.takeWhile (fun c => ¬ c = '.')
  if ext.length = base.length then
    p
  else if (base.take (base.length - ext.length - 1)).all (fun c => c = '.') then
    p
  else
    ⟨cs.take (cs.length - ext.length - 1)⟩

/-! ## Configuration data

The variables.json and definitions.json dictionaries, restricted to the
keys test.py reads. -/

/-- The placeholder strings loaded from conf/variables.json (the keys of
the dict named variables that test.py reads). -/
structure Variables where
  filename : String
  filename_less_extension : String
  directory : String
  problem_number : String
  case_type : String
  language : String

/-- The fields of conf/definitions.json that test.py reads (the dict
named definitions). -/
structure Definitions where
  solution_naming : String
  input_file_ending : String
  output_file_ending : String
  sample_case_extension : String
  corner_case_extension : String
  generated_case_extension : String
  user_output_directory : String
  test_directory : String
  writers_directory : String
  finalio_directory : String
  html_diff_naming : String

/-! ## Result model (test.py lines 105-120) -/

/-- The Run class: one execution result, recording what the user program
printed, the expected output, and the input file used. -/
structure Run where
  userOutput : String
  correctOutput : String
  inputFile : String
deriving DecidableEq

/-! ## Language blocks and variable substitution (test.py lines 122-148) -/

/-- The two extension fields of a language block that
get_source_extension consults; compileExtension is optional. -/
structure LanguageDef where
  runExtension : String
  compileExtension : Option String
deriving DecidableEq

/-- get_source_extension (test.py 123-127): the compileExtension when the
block has one, else the runExtension. -/
def get_source_extension (languageBlock : LanguageDef) : String :=
  match languageBlock.compileExtension with
  | some e => e
  | none => languageBlock.runExtension

/-- replace_language_vars_individual (test.py 130-134): chained textual
replacement, filename first, then filename_less_extension, then
directory, where filenameWithoutExtension is os.path.splitext of the
problem file. -/
def replace_language_vars_individual (vars : Variables) (string problemFile directory : String) : String :=
  let filenameWithoutExtension := splitextRoot problemFile
  pyReplace
    (pyReplace
      (pyReplace string vars.filename problemFile)
      vars.filename_less_extension filenameWithoutExtension)
    vars.directory directory

/-- One JSON value of a language block: a string, a list of strings, or
any other JSON value (number, boolean, object, null), which test.py
never checks for. -/
inductive LangItem where
  | str (s : String)
  | list (l : List String)
  | other
deriving DecidableEq

/-- The loop body of replace_language_vars (test.py 140-147): map the
individual replacement over list values, apply it directly to every
non-list value.  A non-list, non-string value reaches string.replace
and raises AttributeError, modelled as Except.error. -/
def replace_language_vars_step (vars : Variables) (problemFile directory : String) (newLanguageBlock : List (String × LangItem)) (kv : String × LangItem) : Except Unit (List (String × LangItem)) :=
  match kv.2 with
  | .list l =>
      .ok (newLanguageBlock ++
        [(kv.1, .list (l.map (fun e => replace_language_vars_individual vars e problemFile directory)))])
  | .str s =>
      .ok (newLanguageBlock ++
        [(kv.1, .str (replace_language_vars_individual vars s problemFile directory))])
  | .other => .error ()

/-- replace_language_vars (test.py 138-148): fold the step over the
items of the block starting from the empty dict. -/
def replace_language_vars (vars : Variables) (languageBlock : List (String × LangItem)) (problemFile directory : String) : Except Unit (List (String × LangItem)) :=
  languageBlock.foldlM (replace_language_vars_step vars problemFile directory) []

/-- The per-item action of replace_language_vars on values that do not
raise: strings get the individual replacement, list elements get it
elementwise. -/
def replaceItem (vars : Variables) (item : LangItem) (problemFile directory : String) : LangItem :=
  match item with
  | .str s => .str (replace_language_vars_individual vars s problemFile directory)
  | .list l => .list (l.map (fun e => replace_language_vars_individual vars e problemFile directory))
  | .other => .other

/-! ## Run stage (test.py lines 164-191)

The subprocess boundary is an oracle exec : String to Except Unit
String, giving for each input file either the captured UTF-8 output of
subprocess.check_output or a CalledProcessError.  readExpected models
os.path.isfile plus open().read() on the test directory (none when the
file does not exist).  The write of the captured output to the user
output directory (lines 175-177) touches only paths under the user
output directory, which are distinct from the expected-output paths
read back (proved for the generated case under C9), so it is not
threaded through readExpected. -/

/-- The expected-output path of an input file (test.py 171-172): the
input file ending replaced by the output file ending. -/
def output_file_of (inEnd outEnd inputFile : String) : String :=
  pyReplace inputFile ("." ++ inEnd) ("." ++ outEnd)

/-- The loop of run_solution (test.py 169-189), with the pair of locals
(output, outputFileContents) carried explicitly: on a successful run
both are rebound and a Run is appended; on CalledProcessError a Run is
appended from the stale pair, and if no pair has been bound yet (the
first input fails) the Python code raises NameError on the unbound
local output, modelled as Except.error. -/
def run_solution_go (exec : String → Except Unit String) (readExpected : String → Option String) (inEnd outEnd : String) : Option (String × String) → List String → Except Unit (List Run)
  | _, [] => .ok []
  | captured, inputFile :: rest =>
    let outputFile := output_file_of inEnd outEnd inputFile
    match exec inputFile with
    | .ok output =>
      let outputFileContents :=
        match readExpected outputFile with
        | none => output
        | some c => c
      (run_solution_go exec readExpected inEnd outEnd (some (output, outputFileContents)) rest).map
        (fun runs => { userOutput := output, correctOutput := outputFileContents, inputFile := inputFile } :: runs)
    | .error _ =>
      match captured with
      | some p =>
        (run_solution_go exec readExpected inEnd outEnd (some p) rest).map
          (fun runs => { userOutput := p.1, correctOutput := p.2, inputFile := inputFile } :: runs)
      | none => .error ()

/-- run_solution (test.py 164-191): process the input files in order
starting with no captured output; ok gives the list of Run records of
RunResults, error is the unhandled NameError crash. -/
def run_solution (exec : String → Except Unit String) (readExpected : String → Option String) (inEnd outEnd : String) (inputFiles : List String) : Except Unit (List Run) :=
  run_solution_go exec readExpected inEnd outEnd none inputFiles

/-! ## Solution tester (test.py lines 226-272)

The discovery-and-aggregation loop of test_solution after the user
checks: os.listdir of the user directory is the list userFiles, the
compile stage (subprocess exit status) is the oracle compiles, and the
Run batch an attempt produces is the oracle runs (the runs oracle is
consulted only when the compile succeeds, exactly as in the source). -/

/-- The pair of counters of test_solution. -/
structure TSState where
  numSolutions : Nat
  numCorrectSolutions : Nat
deriving DecidableEq

/-- The body of the nested discovery loop (test.py 229-262) for one
(possibleSolution, languageBlock) pair: on a name match numSolutions
is bumped; if the compile succeeds the batch is fetched,
numCorrectRuns counts the runs whose user output equals the correct
output, and numCorrectSolutions is bumped when every run matched. -/
def test_solution_step (problemString : String) (compiles : String → LanguageDef → Bool) (runs : String → LanguageDef → List Run) (possibleSolution : String) (st : TSState) (languageBlock : LanguageDef) : TSState :=
  if possibleSolution == problemString ++ "." ++ get_source_extension languageBlock then
    let st1 : TSState := ⟨st.numSolutions + 1, st.numCorrectSolutions⟩
    if compiles possibleSolution languageBlock then
      let results := runs possibleSolution languageBlock
      let numCorrectRuns := (results.filter (fun r => r.userOutput == r.correctOutput)).length
      if numCorrectRuns == results.length then ⟨st1.numSolutions, st1.numCorrectSolutions + 1⟩
      else st1
    else st1
  else st

/-- test_solution (test.py 226-272), after the user-validity checks: run
the nested loops over the user files and the language blocks, then
return false when no solution was found, else whether every found
solution was correct. -/
def test_solution (problemString : String) (languages : List LanguageDef) (userFiles : List String) (compiles : String → LanguageDef → Bool) (runs : String → LanguageDef → List Run) : Bool :=
  let st := userFiles.foldl
    (fun st possibleSolution =>
      languages.foldl (test_solution_step problemString compiles runs possibleSolution) st)
    ⟨0, 0⟩
  if st.numSolutions == 0 then false
  else st.numCorrectSolutions == st.numSolutions

/-- Full correctness of one solution attempt, as test_solution judges
it: the compile succeeded and every Run of the batch matched. -/
def attempt_correct (compiles : String → LanguageDef → Bool) (runs : String → LanguageDef → List Run) (possibleSolution : String) (languageBlock : LanguageDef) : Bool :=
  compiles possibleSolution languageBlock &&
    (runs possibleSolution languageBlock).all (fun r => r.userOutput == r.correctOutput)

/-! ## Cross-user consistency check (test.py lines 274-296) -/

/-- The output attributed to a user by compare_generated_outputs (test.py
282-286): the contents of the generated output file, or the empty
string when the file is missing. -/
def generated_output (readGenerated : String → Option String) (user : String) : String :=
  match readGenerated user with
  | none => ""
  | some s => s

/-- The loop of compare_generated_outputs with the running lastUser pair
explicit: read the generated output of each user, compare it to the
output of the previous user, abort with false on the first mismatch. -/
def compare_generated_outputs_go (readGenerated : String → Option String) : Option (String × String) → List String → Bool
  | _, [] => true
  | lastUser, user :: rest =>
    let output := generated_output readGenerated user
    match lastUser with
    | none => compare_generated_outputs_go readGenerated (some (user, output)) rest
    | some lu =>
      if output == lu.2 then compare_generated_outputs_go readGenerated (some (user, output)) rest
      else false

/-- compare_generated_outputs (test.py 274-296): walk the users in order
starting from lastUser = (None, None); readGenerated is the oracle
for os.path.isfile plus read of the per-user generated output path. -/
def compare_generated_outputs (readGenerated : String → Option String) (users : List String) : Bool :=
  compare_generated_outputs_go readGenerated none users

/-! ## Finalization (test.py lines 298-334) -/

/-- The six canonical files copy_to_final_io assembles (test.py
305-320): sample input and output, corner input and output, generated
input (all in the test directory) and the generated output of the
user (in the user output directory). -/
def final_copy_list (scriptDir : String) (d : Definitions) (vars : Variables) (problem : Nat) (user : String) : List String :=
  let testPath := pyJoin scriptDir d.test_directory
  let problemString := pyReplace d.solution_naming vars.problem_number (toString problem)
  let userPath := pyJoin scriptDir user
  let sampleInputFile := pyJoin testPath (problemString ++ d.sample_case_extension ++ "." ++ d.input_file_ending)
  let sampleOutputFile := pyJoin testPath (problemString ++ d.sample_case_extension ++ "." ++ d.output_file_ending)
  let cornerInputFile := pyJoin testPath (problemString ++ d.corner_case_extension ++ "." ++ d.input_file_ending)
  let cornerOutputFile := pyJoin testPath (problemString ++ d.corner_case_extension ++ "." ++ d.output_file_ending)
  let generatedInputFile := pyJoin testPath (problemString ++ d.generated_case_extension ++ "." ++ d.input_file_ending)
  let generatedOutputFile := pyJoin (pyJoin userPath d.user_output_directory) (problemString ++ d.generated_case_extension ++ "." ++ d.output_file_ending)
  [sampleInputFile, sampleOutputFile, cornerInputFile, cornerOutputFile,
    generatedInputFile, generatedOutputFile]

/-- Observable outcome of copy_to_final_io: the returned boolean,
whether the final directory existence was ensured (os.makedirs
branch), and the list of source files passed to shutil.copy, in
order. -/
structure CopyOutcome where
  success : Bool
  ensuredFinalDirectory : Bool
  copied : List String
deriving DecidableEq

/-- copy_to_final_io (test.py 298-334): if some file of the copy list is
missing, return false before creating anything or copying anything;
otherwise ensure the final directory exists, copy all six files into
it, and return true.  The early-return existence loop is rendered as
List.all over the copy list. -/
def copy_to_final_io (isFile : String → Bool) (scriptDir : String) (d : Definitions) (vars : Variables) (problem : Nat) (user : String) : CopyOutcome :=
  let copyList := final_copy_list scriptDir d vars problem user
  if copyList.all isFile then
    { success := true, ensuredFinalDirectory := true, copied := copyList }
  else
    { success := false, ensuredFinalDirectory := false, copied := [] }

/-! ## Driver loop (test.py lines 367-378) -/

/-- Observable control flow of the per-problem body of the driver loop:
whether compare_generated_outputs was invoked, and the representative
user handed to copy_to_final_io (none when finalization was not
reached). -/
structure ProblemTrace where
  ranConsistency : Bool
  finalizedWith : Option String
deriving DecidableEq

/-- The body of the outer driver loop for one problem (test.py 367-378):
count the people whose test_solution call returned true; when all
passed, run the consistency check over peopleToTest, and when that
returns true, finalize with peopleToTest[0].  The head? models the
peopleToTest[0] subscript, which the script only reaches with a
nonempty people list. -/
def driver_problem (peopleToTest : List String) (test : String → Bool) (consistent : List String → Bool) : ProblemTrace :=
  let passingPeople := peopleToTest.foldl (fun n person => if test person then n + 1 else n) 0
  if passingPeople == peopleToTest.length then
    if consistent peopleToTest then
      { ranConsistency := true, finalizedWith := peopleToTest.head? }
    else
      { ranConsistency := true, finalizedWith := none }
  else
    { ranConsistency := false, finalizedWith := none }

/-! ## Reporting paths (test.py lines 175, 196-197, 240-253, 277-280) -/

/-- The path run_solution saves a captured output to (test.py 175):
outputDirectory + "/" + basename of the expected-output path. -/
def save_output_path (outputDirectory inEnd outEnd inputFile : String) : String :=
  outputDirectory ++ "/" ++ pyBasename (output_file_of inEnd outEnd inputFile)

/-- The userOutputDirectory of test_solution (test.py 197), the
outputDirectory handed to run_solution. -/
def user_output_directory_of (userPath : String) (d : Definitions) : String :=
  pyJoin userPath d.user_output_directory

/-- The path compare_generated_outputs reads the generated output of a
user from (test.py 277-280): directly under the user directory, not
under the user output directory. -/
def generated_read_path (userPath problemString : String) (d : Definitions) : String :=
  pyJoin userPath (problemString ++ d.generated_case_extension ++ "." ++ d.output_file_ending)

/-- The itemType label of a Run in the report loop of test_solution
(test.py 241): SAMPLE for the sample input file, CORNER for every
other input file. -/
def case_item_type (sampleFile : String) (r : Run) : String :=
  if r.inputFile == sampleFile then "SAMPLE" else "CORNER"

/-- The HTML diff artifact path (test.py 250-253): the html_diff_naming
template with the case_type placeholder replaced by the lowercased
itemType, then the language placeholder, then the problem number. -/
def html_diff_file (userOutputDirectory : String) (d : Definitions) (vars : Variables) (itemType language : String) (problem : Nat) : String :=
  pyJoin userOutputDirectory
    (pyReplace
      (pyReplace
        (pyReplace d.html_diff_naming vars.case_type (pyLower itemType))
        vars.language language)
      vars.problem_number (toString problem))

/-! ## Theorems about the run stage -/

/-- C4: for an input file whose run succeeds, when the derived
expected-output file does not exist the appended Run carries the
just-captured output as its expected value, so its comparison
trivially succeeds; when the file exists, its contents become the
expected value. -/
theorem run_expected_from_file_or_actual
    (exec : String → Except Unit String) (readExpected : String → Option String)
    (inEnd outEnd : String) (captured : Option (String × String))
    (inputFile : String) (rest : List String) (output : String)
    (h : exec inputFile = .ok output) :
    (readExpected (output_file_of inEnd outEnd inputFile) = none →
      run_solution_go exec readExpected inEnd outEnd captured (inputFile :: rest)
        = (run_solution_go exec readExpected inEnd outEnd (some (output, output)) rest).map
            (fun runs => { userOutput := output, correctOutput := output, inputFile := inputFile } :: runs))
    ∧ (∀ c, readExpected (output_file_of inEnd outEnd inputFile) = some c →
      run_solution_go exec readExpected inEnd outEnd captured (inputFile :: rest)
        = (run_solution_go exec readExpected inEnd outEnd (some (output, c)) rest).map
            (fun runs => { userOutput := output, correctOutput := c, inputFile := inputFile } :: runs)) := by
  constructor
  · intro hr
    simp [run_solution_go, h, hr]
  · intro c hr
    simp [run_solution_go, h, hr]

/-- Witness for C4: one successful generated-case run with no expected
file; the Run compares its own output against itself. -/
theorem run_expected_from_file_or_actual_witness :
    ((fun _ : String => (Except.ok "5" : Except Unit String)) "g.in" = Except.ok "5")
    ∧ run_solution_go (fun _ : String => (Except.ok "5" : Except Unit String)) (fun _ => none) "in" "out" none ["g.in"]
        = Except.ok [{ userOutput := "5", correctOutput := "5", inputFile := "g.in" }] := by
  refine ⟨rfl, ?_⟩
  have h := (run_expected_from_file_or_actual (fun _ => Except.ok "5") (fun _ => none)
    "in" "out" none "g.in" [] "5" rfl).1 rfl
  rw [h]
  rfl

/-- C3 (amended): when the run subprocess fails on an input file and an
earlier input of the batch has already been captured, a Run built
from the stale captured pair is still appended and the batch
continues with the remaining inputs. -/
theorem run_failure_appends_stale_run
    (exec : String → Except Unit String) (readExpected : String → Option String)
    (inEnd outEnd : String) (output outputFileContents : String)
    (inputFile : String) (rest : List String)
    (h : exec inputFile = .error ()) :
    run_solution_go exec readExpected inEnd outEnd (some (output, outputFileContents)) (inputFile :: rest)
      = (run_solution_go exec readExpected inEnd outEnd (some (output, outputFileContents)) rest).map
          (fun runs => { userOutput := output, correctOutput := outputFileContents, inputFile := inputFile } :: runs) := by
  simp [run_solution_go, h]

/-- Witness for C3 (amended): the second input fails after a successful
capture; the stale pair is recorded for it. -/
theorem run_failure_appends_stale_run_witness :
    ((fun _ : String => (Except.error () : Except Unit String)) "g.in" = Except.error ())
    ∧ run_solution_go (fun _ : String => (Except.error () : Except Unit String)) (fun _ => none) "in" "out" (some ("5", "6")) ["g.in"]
        = Except.ok [{ userOutput := "5", correctOutput := "6", inputFile := "g.in" }] := by
  refine ⟨rfl, ?_⟩
  have h := run_failure_appends_stale_run (fun _ => Except.error ()) (fun _ => none)
    "in" "out" "5" "6" "g.in" [] rfl
  rw [h]
  rfl

/-- C3 counterexample: when the very first input of the batch fails, no
Run is appended at all; the unbound local output raises NameError and
run_solution aborts, against the claim that a Run is appended even
when the failing input is the first one. -/
theorem run_failure_first_input_no_run :
    run_solution (fun _ => Except.error ()) (fun _ => none) "in" "out" ["Problem1_generated.in"]
      = Except.error () := rfl

/-! ## Theorems about reporting labels -/

/-- C10: every mismatching Run whose input file is not the sample-case
file is labeled CORNER, and its HTML diff artifact is named with the
lowercased case type corner. -/
theorem nonsample_mismatch_labeled_corner
    (sampleFile : String) (r : Run) (userOutputDirectory : String)
    (d : Definitions) (vars : Variables) (language : String) (problem : Nat)
    (h : r.inputFile ≠ sampleFile) :
    case_item_type sampleFile r = "CORNER"
    ∧ html_diff_file userOutputDirectory d vars (case_item_type sampleFile r) language problem
        = pyJoin userOutputDirectory
            (pyReplace
              (pyReplace
                (pyReplace d.html_diff_naming vars.case_type "corner")
                vars.language language)
              vars.problem_number (toString problem)) := by
  have hl : case_item_type sampleFile r = "CORNER" := by
    simp [case_item_type, h]
  refine ⟨hl, ?_⟩
  rw [hl]
  have hc : pyLower "CORNER" = "corner" := by decide
  simp [html_diff_file, hc]

/-- Witness for C10: a generated-case Run, distinct from the sample
file, gets the CORNER label. -/
theorem nonsample_mismatch_labeled_corner_witness :
    (("Problem1_generated.in" : String) ≠ "Problem1_sample.in")
    ∧ case_item_type "Problem1_sample.in"
        { userOutput := "a", correctOutput := "b", inputFile := "Problem1_generated.in" } = "CORNER" := by
  have h : ("Problem1_generated.in" : String) ≠ "Problem1_sample.in" := by decide
  exact ⟨h, (nonsample_mismatch_labeled_corner "Problem1_sample.in"
    { userOutput := "a", correctOutput := "b", inputFile := "Problem1_generated.in" }
    "odir"
    { solution_naming := "Problem%n%", input_file_ending := "in", output_file_ending := "out",
      sample_case_extension := "_sample", corner_case_extension := "_corner",
      generated_case_extension := "_generated", user_output_directory := "output",
      test_directory := "tests", writers_directory := "writers", finalio_directory := "FinalIO",
      html_diff_naming := "%c%_%l%_%n%.html" }
    { filename := "%f%", filename_less_extension := "%fl%", directory := "%d%",
      problem_number := "%n%", case_type := "%c%", language := "%l%" }
    "python" 1 h).1⟩

/-! ## Theorems about variable substitution -/

/-- C6 counterexample: with the filename placeholder A a literal
substring of the filename_less_extension placeholder AB, the
individual substitution of the template AB (code order: filename
first) yields XB, while substituting filename_less_extension first
yields X — the filename replacement corrupted the longer placeholder
and the result is order-dependent. -/
theorem substitution_order_dependent_cex :
    replace_language_vars_individual ⟨"A", "AB", "D", "N", "T", "L"⟩ "AB" "X" "Y" = "XB"
    ∧ pyReplace (pyReplace (pyReplace "AB" "AB" (splitextRoot "X")) "A" "X") "D" "Y" = "X"
    ∧ ("XB" : String) ≠ "X" := by
  refine ⟨by decide, by decide, by decide⟩

/-- C6 (amended): replace_language_vars_individual substitutes in the
fixed order filename, filename_less_extension, directory by naive
substring replacement; this is not order-independent: there are
placeholder mappings and templates on which its result differs from
the one obtained by substituting filename_less_extension first. -/
theorem substitution_not_order_independent :
    ∃ (vars : Variables) (s problemFile directory : String),
      replace_language_vars_individual vars s problemFile directory
        ≠ pyReplace
            (pyReplace
              (pyReplace s vars.filename_less_extension (splitextRoot problemFile))
              vars.filename problemFile)
            vars.directory directory := by
  refine ⟨⟨"A", "AB", "D", "N", "T", "L"⟩, "AB", "X", "Y", ?_⟩
  decide

/-- Steps of the fold of replace_language_vars on a block free of
non-string, non-list values: the accumulator grows by the replaced
items. -/
theorem replace_language_vars_fold
    (vars : Variables) (problemFile directory : String) :
    ∀ (languageBlock : List (String × LangItem)) (acc : List (String × LangItem)),
      (∀ kv ∈ languageBlock, kv.2 ≠ LangItem.other) →
      languageBlock.foldlM (replace_language_vars_step vars problemFile directory) acc
        = .ok (acc ++ languageBlock.map (fun kv => (kv.1, replaceItem vars kv.2 problemFile directory))) := by
  intro languageBlock
  induction languageBlock with
  | nil =>
    intro acc _
    simp only [List.foldlM_nil, List.map_nil, List.append_nil]
    rfl
  | cons kv rest ih =>
    intro acc h
    have hkv : kv.2 ≠ LangItem.other := h kv (List.mem_cons_self kv rest)
    have hrest : ∀ kw ∈ rest, kw.2 ≠ LangItem.other :=
      fun kw hw => h kw (List.mem_cons_of_mem kv hw)
    obtain ⟨k, v⟩ := kv
    have hstep : replace_language_vars_step vars problemFile directory acc (k, v)
        = Except.ok (acc ++ [(k, replaceItem vars v problemFile directory)]) := by
      cases v with
      | str s => rfl
      | list l => rfl
      | other => exact absurd rfl hkv
    rw [List.foldlM_cons, hstep]
    rw [show ((Except.ok (acc ++ [(k, replaceItem vars v problemFile directory)]) : Except Unit _) >>= fun b =>
        List.foldlM (replace_language_vars_step vars problemFile directory) b rest)
      = List.foldlM (replace_language_vars_step vars problemFile directory)
          (acc ++ [(k, replaceItem vars v problemFile directory)]) rest from rfl]
    rw [ih _ hrest]
    simp

/-- C5 (amended): replace_language_vars applies placeholder replacement
to every string field and to every element of every list field of a
block whose values are all strings or lists, returning the block with
replaceItem mapped over it; a non-string, non-list field is not
passed through: it raises AttributeError instead. -/
theorem replace_language_vars_maps_fields
    (vars : Variables) (languageBlock : List (String × LangItem)) (problemFile directory : String)
    (h : ∀ kv ∈ languageBlock, kv.2 ≠ LangItem.other) :
    replace_language_vars vars languageBlock problemFile directory
      = .ok (languageBlock.map (fun kv => (kv.1, replaceItem vars kv.2 problemFile directory))) := by
  have := replace_language_vars_fold vars problemFile directory languageBlock [] h
  simpa [replace_language_vars] using this

/-- Witness for C5 (amended) on a concrete block with one string field
and one list field. -/
theorem replace_language_vars_maps_fields_witness :
    (∀ kv ∈ [("runCommand", LangItem.str "python"), ("runArguments", LangItem.list ["%d%/%f%"])], kv.2 ≠ LangItem.other)
    ∧ replace_language_vars ⟨"%f%", "%fl%", "%d%", "%n%", "%c%", "%l%"⟩
        [("runCommand", LangItem.str "python"), ("runArguments", LangItem.list ["%d%/%f%"])] "sol.py" "/u"
        = .ok [("runCommand", LangItem.str "python"), ("runArguments", LangItem.list ["/u/sol.py"])] := by
  refine ⟨by decide, ?_⟩
  have h := replace_language_vars_maps_fields ⟨"%f%", "%fl%", "%d%", "%n%", "%c%", "%l%"⟩
    [("runCommand", LangItem.str "python"), ("runArguments", LangItem.list ["%d%/%f%"])]
    "sol.py" "/u" (by decide)
  rw [h]
  rfl

/-- C5 counterexample: a block with a non-string, non-list field is not
passed through unchanged; replace_language_vars raises (AttributeError
on string.replace), modelled as Except.error. -/
theorem replace_language_vars_errors_on_nonstring :
    replace_language_vars ⟨"%f%", "%fl%", "%d%", "%n%", "%c%", "%l%"⟩
      [("timeoutSeconds", LangItem.other)] "sol.py" "/u" = .error () := rfl

/-! ## Theorems about the consistency check -/

/-- The loop of compare_generated_outputs with a bound last pair returns
true exactly when every remaining user produces the output of that
pair. -/
theorem compare_generated_outputs_go_some
    (readGenerated : String → Option String) (users : List String) :
    ∀ (lastUser : String) (lastOutput : String),
      compare_generated_outputs_go readGenerated (some (lastUser, lastOutput)) users = true
        ↔ ∀ u ∈ users, generated_output readGenerated u = lastOutput := by
  induction users with
  | nil => intro lu lo; simp [compare_generated_outputs_go]
  | cons u rest ih =>
    intro lu lo
    show (if generated_output readGenerated u == lo
          then compare_generated_outputs_go readGenerated (some (u, generated_output readGenerated u)) rest
          else false) = true ↔ _
    by_cases hu : generated_output readGenerated u = lo
    · rw [if_pos (beq_iff_eq.mpr hu)]
      rw [ih u (generated_output readGenerated u)]
      constructor
      · intro hres v hv
        rcases List.mem_cons.mp hv with h1 | h2
        · rw [h1]; exact hu
        · rw [hres v h2]; exact hu
      · intro hres v hv
        exact (hres v (List.mem_cons_of_mem u hv)).trans hu.symm
    · rw [if_neg (fun hc => hu (beq_iff_eq.mp hc))]
      simp only [Bool.false_eq_true, false_iff]
      intro hres
      exact hu (hres u (List.mem_cons_self u rest))

/-- C2: compare_generated_outputs returns true exactly when the
generated outputs of all users agree byte for byte, a missing file
counting as the empty string; in particular all-missing compares
equal. -/
theorem compare_generated_outputs_iff_all_equal
    (readGenerated : String → Option String) (users : List String) :
    compare_generated_outputs readGenerated users = true
      ↔ ∀ u ∈ users, ∀ v ∈ users,
          generated_output readGenerated u = generated_output readGenerated v := by
  cases users with
  | nil => simp [compare_generated_outputs, compare_generated_outputs_go]
  | cons u rest =>
    show compare_generated_outputs_go readGenerated (some (u, generated_output readGenerated u)) rest = true ↔ _
    rw [compare_generated_outputs_go_some readGenerated rest u (generated_output readGenerated u)]
    constructor
    · intro h v hv w hw
      rcases List.mem_cons.mp hv with h1 | h2 <;> rcases List.mem_cons.mp hw with g1 | g2
      · rw [h1, g1]
      · rw [h1, h w g2]
      · rw [g1, h v h2]
      · rw [h v h2, h w g2]
    · intro h v hv
      exact h v (List.mem_cons_of_mem u hv) u (List.mem_cons_self u rest)

/-! ## Theorems about finalization -/

/-- C7: copy_to_final_io succeeds exactly when every one of the six
canonical files exists; on failure nothing is copied and the final
directory is not touched; on success the final directory existence is
ensured and exactly the six files of the copy list are copied. -/
theorem copy_to_final_io_spec
    (isFile : String → Bool) (scriptDir : String) (d : Definitions) (vars : Variables)
    (problem : Nat) (user : String) :
    ((copy_to_final_io isFile scriptDir d vars problem user).success = true
      ↔ ∀ f ∈ final_copy_list scriptDir d vars problem user, isFile f = true)
    ∧ ((copy_to_final_io isFile scriptDir d vars problem user).success = false →
        (copy_to_final_io isFile scriptDir d vars problem user).copied = []
        ∧ (copy_to_final_io isFile scriptDir d vars problem user).ensuredFinalDirectory = false)
    ∧ ((copy_to_final_io isFile scriptDir d vars problem user).success = true →
        (copy_to_final_io isFile scriptDir d vars problem user).copied
          = final_copy_list scriptDir d vars problem user
        ∧ (copy_to_final_io isFile scriptDir d vars problem user).ensuredFinalDirectory = true)
    ∧ (final_copy_list scriptDir d vars problem user).length = 6 := by
  have hs : (copy_to_final_io isFile scriptDir d vars problem user).success
      = (final_copy_list scriptDir d vars problem user).all isFile := by
    simp only [copy_to_final_io]
    cases hall : (final_copy_list scriptDir d vars problem user).all isFile <;> simp [hall]
  refine ⟨?_, ?_, ?_, ?_⟩
  · rw [hs, List.all_eq_true]
  · intro hfail
    rw [hs] at hfail
    simp [copy_to_final_io, hfail]
  · intro hok
    rw [hs] at hok
    simp [copy_to_final_io, hok]
  · simp [final_copy_list]

/-! ## Theorems about the driver loop -/

/-- The passing-people counter of the driver loop is a countP. -/
theorem driver_count_foldl (test : String → Bool) (l : List String) :
    ∀ n : Nat, l.foldl (fun n person => if test person then n + 1 else n) n = n + l.countP test := by
  induction l with
  | nil => intro n; simp
  | cons p rest ih =>
    intro n
    cases hp : test p with
    | true => simp [List.foldl_cons, hp, ih, List.countP_cons]; omega
    | false => simp [List.foldl_cons, hp, ih, List.countP_cons]

/-- C8: for one problem, the consistency check runs exactly when every
tested person passes, and finalization is invoked exactly when the
consistency check also returned true, with the first tested person as
the representative. -/
theorem driver_control_flow
    (peopleToTest : List String) (test : String → Bool) (consistent : List String → Bool)
    (h : peopleToTest ≠ []) :
    ((driver_problem peopleToTest test consistent).ranConsistency = true
      ↔ ∀ p ∈ peopleToTest, test p = true)
    ∧ (driver_problem peopleToTest test consistent).finalizedWith
        = (if (∀ p ∈ peopleToTest, test p = true) ∧ consistent peopleToTest = true
           then some (peopleToTest.head h) else none) := by
  have hcount := driver_count_foldl test peopleToTest 0
  rw [Nat.zero_add] at hcount
  by_cases hall : ∀ p ∈ peopleToTest, test p = true
  · have hcond : ((peopleToTest.foldl (fun n person => if test person then n + 1 else n) 0)
        == peopleToTest.length) = true := by
      rw [hcount, List.countP_eq_length.mpr hall]
      exact beq_self_eq_true _
    cases hc : consistent peopleToTest with
    | true =>
      have hdr : driver_problem peopleToTest test consistent
          = { ranConsistency := true, finalizedWith := peopleToTest.head? } := by
        simp [driver_problem, hcond, hc]
      rw [hdr]
      refine ⟨⟨fun _ => hall, fun _ => rfl⟩, ?_⟩
      rw [if_pos ⟨hall, rfl⟩]
      exact List.head?_eq_head h
    | false =>
      have hdr : driver_problem peopleToTest test consistent
          = { ranConsistency := true, finalizedWith := none } := by
        simp [driver_problem, hcond, hc]
      rw [hdr]
      refine ⟨⟨fun _ => hall, fun _ => rfl⟩, ?_⟩
      rw [if_neg (fun hcc => Bool.false_ne_true hcc.2)]
  · have hlen : peopleToTest.countP test ≠ peopleToTest.length :=
      fun he => hall (List.countP_eq_length.mp he)
    have hcond : ((peopleToTest.foldl (fun n person => if test person then n + 1 else n) 0)
        == peopleToTest.length) = false := by
      rw [hcount]
      exact beq_eq_false_iff_ne.mpr hlen
    have hdr : driver_problem peopleToTest test consistent
        = { ranConsistency := false, finalizedWith := none } := by
      simp [driver_problem, hcond]
    rw [hdr]
    refine ⟨⟨fun hh => absurd hh Bool.false_ne_true, fun hforall => absurd hforall hall⟩, ?_⟩
    rw [if_neg (fun hcc => hall hcc.1)]

/-- Witness for C8 on a concrete run: two people, both passing, with a
passing consistency check. -/
theorem driver_control_flow_witness :
    ((["alice", "bob"] : List String) ≠ [])
    ∧ ((driver_problem ["alice", "bob"] (fun _ => true) (fun _ => true)).ranConsistency = true
        ↔ ∀ p ∈ ["alice", "bob"], (fun _ : String => true) p = true) := by
  have h : (["alice", "bob"] : List String) ≠ [] := by decide
  exact ⟨h, (driver_control_flow ["alice", "bob"] (fun _ => true) (fun _ => true) h).1⟩

/-! ## Theorems about the solution tester -/

/-- The numCorrectRuns check of test_solution: the filtered length
equals the batch length exactly when every run matched. -/
theorem filter_length_beq_all {α : Type} (p : α → Bool) (l : List α) :
    ((l.filter p).length == l.length) = l.all p := by
  cases hall : l.all p with
  | true =>
    rw [List.filter_eq_self.mpr (List.all_eq_true.mp hall)]
    exact beq_self_eq_true _
  | false =>
    have hx : ∃ x ∈ l, ¬ p x = true := by
      rcases List.all_eq_false.mp hall with ⟨x, hx, hpx⟩
      exact ⟨x, hx, hpx⟩
    have hlt : (l.filter p).length < l.length :=
      List.length_filter_lt_length_iff_exists.mpr hx
    exact beq_eq_false_iff_ne.mpr (Nat.ne_of_lt hlt)

/-- One step of the discovery loop in closed form: the counters grow by
one when the file name matches, and numCorrectSolutions additionally
requires the attempt to be fully correct. -/
theorem test_solution_step_closed
    (problemString : String) (compiles : String → LanguageDef → Bool)
    (runs : String → LanguageDef → List Run) (f : String) (st : TSState) (lb : LanguageDef) :
    test_solution_step problemString compiles runs f st lb
      = ⟨st.numSolutions + (if f == problemString ++ "." ++ get_source_extension lb then 1 else 0),
         st.numCorrectSolutions +
           (if (f == problemString ++ "." ++ get_source_extension lb)
               && attempt_correct compiles runs f lb then 1 else 0)⟩ := by
  cases hm : (f == problemString ++ "." ++ get_source_extension lb) with
  | false => simp [test_solution_step, hm]
  | true =>
    cases hc : compiles f lb with
    | false => simp [test_solution_step, hm, hc, attempt_correct]
    | true =>
      simp only [test_solution_step, hm, if_true, hc, attempt_correct, Bool.true_and]
      rw [filter_length_beq_all]
      cases hall : (runs f lb).all (fun r => r.userOutput == r.correctOutput) <;> simp

/-- The inner loop over the language blocks in closed form: countP of
the matching blocks and of the matching fully-correct blocks. -/
theorem test_solution_langs_foldl
    (problemString : String) (compiles : String → LanguageDef → Bool)
    (runs : String → LanguageDef → List Run) (f : String) (langs : List LanguageDef) :
    ∀ st : TSState,
      langs.foldl (test_solution_step problemString compiles runs f) st
        = ⟨st.numSolutions + langs.countP (fun lb => f == problemString ++ "." ++ get_source_extension lb),
           st.numCorrectSolutions + langs.countP (fun lb =>
             (f == problemString ++ "." ++ get_source_extension lb)
               && attempt_correct compiles runs f lb)⟩ := by
  induction langs with
  | nil => intro st; simp
  | cons lb rest ih =>
    intro st
    rw [List.foldl_cons, test_solution_step_closed, ih]
    simp only [List.countP_cons, TSState.mk.injEq]
    constructor <;> omega

/-- The outer loop over the user files in closed form: sums over the
files of the per-file counts. -/
theorem test_solution_files_foldl
    (problemString : String) (languages : List LanguageDef)
    (compiles : String → LanguageDef → Bool) (runs : String → LanguageDef → List Run)
    (userFiles : List String) :
    ∀ st : TSState,
      userFiles.foldl
        (fun st possibleSolution =>
          languages.foldl (test_solution_step problemString compiles runs possibleSolution) st) st
        = ⟨st.numSolutions + (userFiles.map (fun f =>
             languages.countP (fun lb => f == problemString ++ "." ++ get_source_extension lb))).sum,
           st.numCorrectSolutions + (userFiles.map (fun f =>
             languages.countP (fun lb =>
               (f == problemString ++ "." ++ get_source_extension lb)
                 && attempt_correct compiles runs f lb))).sum⟩ := by
  induction userFiles with
  | nil => intro st; simp
  | cons f rest ih =>
    intro st
    rw [List.foldl_cons, test_solution_langs_foldl, ih]
    simp only [List.map_cons, List.sum_cons, TSState.mk.injEq]
    constructor <;> omega

/-- Sums of pointwise bounded maps are monotone. -/
theorem sum_map_le_sum_map {α : Type} (l : List α) (a b : α → Nat) (hle : ∀ f ∈ l, b f ≤ a f) :
    (l.map b).sum ≤ (l.map a).sum := by
  induction l with
  | nil => simp
  | cons f rest ih =>
    simp only [List.map_cons, List.sum_cons]
    have h1 := hle f (List.mem_cons_self f rest)
    have h2 := ih (fun g hg => hle g (List.mem_cons_of_mem f hg))
    omega

/-- Sums of pointwise bounded maps agree exactly when they agree
pointwise. -/
theorem sum_map_eq_sum_map_iff {α : Type} (l : List α) (a b : α → Nat) (hle : ∀ f ∈ l, b f ≤ a f) :
    (l.map b).sum = (l.map a).sum ↔ ∀ f ∈ l, b f = a f := by
  induction l with
  | nil => simp
  | cons f rest ih =>
    simp only [List.map_cons, List.sum_cons]
    have h1 := hle f (List.mem_cons_self f rest)
    have hrest : ∀ g ∈ rest, b g ≤ a g := fun g hg => hle g (List.mem_cons_of_mem f hg)
    have h2 := sum_map_le_sum_map rest a b hrest
    rw [show (∀ g ∈ f :: rest, b g = a g) ↔ (b f = a f ∧ ∀ g ∈ rest, b g = a g) from List.forall_mem_cons]
    rw [← ih hrest]
    omega

/-- Counting the conjunction equals counting the left conjunct exactly
when the right conjunct holds wherever the left does. -/
theorem countP_and_eq_countP_iff {α : Type} (m c : α → Bool) (l : List α) :
    l.countP (fun x => m x && c x) = l.countP m ↔ ∀ x ∈ l, m x = true → c x = true := by
  induction l with
  | nil => simp
  | cons x rest ih =>
    have hle : rest.countP (fun y => m y && c y) ≤ rest.countP m :=
      List.countP_mono_left (fun y _ hy => Bool.and_elim_left hy)
    rw [show (∀ y ∈ x :: rest, m y = true → c y = true)
        ↔ ((m x = true → c x = true) ∧ ∀ y ∈ rest, m y = true → c y = true) from List.forall_mem_cons]
    rw [← ih]
    simp only [List.countP_cons]
    cases hm : m x with
    | false => simp
    | true =>
      cases hc : c x with
      | false => simp; omega
      | true => simp

/-- C1: test_solution returns true exactly when at least one file of the
user directory matches the solution naming pattern with the source
extension of some language block, and every matching (file, block)
attempt compiles and has every Run of its batch matching; a
compile-failed attempt falsifies the right-hand side while still
counting as found, and with no matching file the result is false. -/
theorem test_solution_pass_iff
    (problemString : String) (languages : List LanguageDef) (userFiles : List String)
    (compiles : String → LanguageDef → Bool) (runs : String → LanguageDef → List Run) :
    test_solution problemString languages userFiles compiles runs = true
      ↔ ((∃ f ∈ userFiles, ∃ lb ∈ languages, f = problemString ++ "." ++ get_source_extension lb)
        ∧ ∀ f ∈ userFiles, ∀ lb ∈ languages,
            f = problemString ++ "." ++ get_source_extension lb →
              compiles f lb = true ∧ ∀ r ∈ runs f lb, r.userOutput = r.correctOutput) := by
  have hfold := test_solution_files_foldl problemString languages compiles runs userFiles ⟨0, 0⟩
  simp only [Nat.zero_add] at hfold
  have h1 : (userFiles.foldl
      (fun st possibleSolution =>
        languages.foldl (test_solution_step problemString compiles runs possibleSolution) st)
      ⟨0, 0⟩).numSolutions
      = (userFiles.map (fun f =>
          languages.countP (fun lb => f == problemString ++ "." ++ get_source_extension lb))).sum := by
    rw [hfold]
  have h2 : (userFiles.foldl
      (fun st possibleSolution =>
        languages.foldl (test_solution_step problemString compiles runs possibleSolution) st)
      ⟨0, 0⟩).numCorrectSolutions
      = (userFiles.map (fun f =>
          languages.countP (fun lb =>
            (f == problemString ++ "." ++ get_source_extension lb)
              && attempt_correct compiles runs f lb))).sum := by
    rw [hfold]
  have hle : ∀ f ∈ userFiles,
      languages.countP (fun lb =>
        (f == problemString ++ "." ++ get_source_extension lb)
          && attempt_correct compiles runs f lb)
      ≤ languages.countP (fun lb => f == problemString ++ "." ++ get_source_extension lb) :=
    fun f _ => List.countP_mono_left (fun lb _ hy => Bool.and_elim_left hy)
  simp only [test_solution, h1, h2]
  cases hS0 : ((userFiles.map (fun f =>
      languages.countP (fun lb => f == problemString ++ "." ++ get_source_extension lb))).sum == 0) with
  | true =>
    rw [if_pos rfl]
    have hS : (userFiles.map (fun f =>
        languages.countP (fun lb => f == problemString ++ "." ++ get_source_extension lb))).sum = 0 :=
      beq_iff_eq.mp hS0
    simp only [Bool.false_eq_true, false_iff]
    rintro ⟨⟨f, hf, lb, hlb, he⟩, -⟩
    have h0 := List.sum_eq_zero_iff.mp hS _ (List.mem_map.mpr ⟨f, hf, rfl⟩)
    exact absurd (beq_iff_eq.mpr he) (List.countP_eq_zero.mp h0 lb hlb)
  | false =>
    rw [if_neg Bool.false_ne_true]
    have hS : (userFiles.map (fun f =>
        languages.countP (fun lb => f == problemString ++ "." ++ get_source_extension lb))).sum ≠ 0 :=
      beq_eq_false_iff_ne.mp hS0
    rw [show ((userFiles.map (fun f =>
        languages.countP (fun lb =>
          (f == problemString ++ "." ++ get_source_extension lb)
            && attempt_correct compiles runs f lb))).sum
        == (userFiles.map (fun f =>
        languages.countP (fun lb => f == problemString ++ "." ++ get_source_extension lb))).sum)
        = true ↔ _ from beq_iff_eq]
    rw [sum_map_eq_sum_map_iff userFiles
      (fun f => languages.countP (fun lb => f == problemString ++ "." ++ get_source_extension lb))
      (fun f => languages.countP (fun lb =>
        (f == problemString ++ "." ++ get_source_extension lb)
          && attempt_correct compiles runs f lb))
      hle]
    constructor
    · intro hpt
      constructor
      · by_contra hne
        apply hS
        apply List.sum_eq_zero_iff.mpr
        intro x hx
        obtain ⟨f, hf, rfl⟩ := List.mem_map.mp hx
        apply List.countP_eq_zero.mpr
        intro lb hlb hbe
        exact hne ⟨f, hf, lb, hlb, beq_iff_eq.mp hbe⟩
      · intro f hf lb hlb he
        have hcp := (countP_and_eq_countP_iff
          (fun lb => f == problemString ++ "." ++ get_source_extension lb)
          (fun lb => attempt_correct compiles runs f lb) languages).mp
          (hpt f hf) lb hlb (beq_iff_eq.mpr he)
        simp only [attempt_correct, Bool.and_eq_true, List.all_eq_true] at hcp
        exact ⟨hcp.1, fun r hr => beq_iff_eq.mp (hcp.2 r hr)⟩
    · rintro ⟨-, hall⟩ f hf
      apply (countP_and_eq_countP_iff
        (fun lb => f == problemString ++ "." ++ get_source_extension lb)
        (fun lb => attempt_correct compiles runs f lb) languages).mpr
      intro lb hlb hbe
      have hc := hall f hf lb hlb (beq_iff_eq.mp hbe)
      simp only [attempt_correct, Bool.and_eq_true, List.all_eq_true]
      exact ⟨hc.1, fun r hr => beq_iff_eq.mpr (hc.2 r hr)⟩

/-! ## Theorems about the generated-output paths -/

/-- A list missing a character cannot have it as head. -/
theorem head?_ne_of_not_mem {c : Char} {l : List Char} (h : ¬ c ∈ l) : ¬ l.head? = some c := by
  cases l with
  | nil => simp
  | cons a t =>
    simp only [List.head?_cons, Option.some.injEq]
    intro he
    exact h (he ▸ List.mem_cons_self a t)

/-- C9: the path compare_generated_outputs reads a generated output from
(directly under the user directory) differs from the path run_solution
saves the captured generated output to (under the user output
directory), whenever the configured user_output_directory is a
nonempty relative name and the generated output file name contains no
slash; the consistency check therefore never reads what the run stage
wrote for that user. -/
theorem generated_read_path_ne_save_path
    (userPath problemString inputFile : String) (d : Definitions)
    (_h1 : ¬ d.user_output_directory = "")
    (h2 : ¬ d.user_output_directory.data.head? = some '/')
    (h3 : ¬ '/' ∈ (problemString ++ d.generated_case_extension ++ "." ++ d.output_file_ending).data) :
    ¬ generated_read_path userPath problemString d
      = save_output_path (user_output_directory_of userPath d)
          d.input_file_ending d.output_file_ending inputFile := by
  intro heq
  have hfh : ¬ (problemString ++ d.generated_case_extension ++ "." ++ d.output_file_ending).data.head?
      = some '/' := head?_ne_of_not_mem h3
  rw [generated_read_path, save_output_path, user_output_directory_of] at heq
  rw [pyJoin, pyJoin, if_neg hfh, if_neg h2] at heq
  by_cases hC : userPath.data = [] ∨ userPath.data.getLast? = some '/'
  · rw [if_pos hC, if_pos hC] at heq
    have hd := congrArg String.data heq
    simp only [String.data_append, List.append_assoc, List.singleton_append] at hd
    have hc := List.append_cancel_left hd
    apply h3
    simp only [String.data_append, List.append_assoc, List.singleton_append]
    rw [hc]
    simp
  · rw [if_neg hC, if_neg hC] at heq
    have hd := congrArg String.data heq
    simp only [String.data_append, List.append_assoc, List.singleton_append] at hd
    have hc := List.append_cancel_left hd
    injection hc with hhead htail
    apply h3
    simp only [String.data_append, List.append_assoc, List.singleton_append]
    rw [htail]
    simp

/-- Witness for C9 with the canonical configuration: the read path
/h/u/Problem1_generated.out differs from the save path under
/h/u/output. -/
theorem generated_read_path_ne_save_path_witness :
    (¬ ("output" : String) = "")
    ∧ (¬ ("output" : String).data.head? = some '/')
    ∧ (¬ '/' ∈ (("Problem1" : String) ++ "_generated" ++ "." ++ "out").data)
    ∧ ¬ generated_read_path "/h/u" "Problem1"
          { solution_naming := "Problem%n%", input_file_ending := "in", output_file_ending := "out",
            sample_case_extension := "_sample", corner_case_extension := "_corner",
            generated_case_extension := "_generated", user_output_directory := "output",
            test_directory := "tests", writers_directory := "writers", finalio_directory := "FinalIO",
            html_diff_naming := "%c%_%l%_%n%.html" }
        = save_output_path
            (user_output_directory_of "/h/u"
              { solution_naming := "Problem%n%", input_file_ending := "in", output_file_ending := "out",
                sample_case_extension := "_sample", corner_case_extension := "_corner",
                generated_case_extension := "_generated", user_output_directory := "output",
                test_directory := "tests", writers_directory := "writers", finalio_directory := "FinalIO",
                html_diff_naming := "%c%_%l%_%n%.html" })
            "in" "out" "/h/tests/Problem1_generated.in" := by
  refine ⟨by decide, by decide, by decide, ?_⟩
  exact generated_read_path_ne_save_path "/h/u" "Problem1" "/h/tests/Problem1_generated.in"
    { solution_naming := "Problem%n%", input_file_ending := "in", output_file_ending := "out",
      sample_case_extension := "_sample", corner_case_extension := "_corner",
      generated_case_extension := "_generated", user_output_directory := "output",
      test_directory := "tests", writers_directory := "writers", finalio_directory := "FinalIO",
      html_diff_naming := "%c%_%l%_%n%.html" }
    (by decide) (by decide) (by decide)

end PyCF
